import Mathlib

/-!
Verification development for the training-export pipeline of an
image-annotation backend (source: src/api/routes/training.ts).

The shallow embedding below translates the route handler POST /start and its
helpers into Lean. JavaScript strings are modeled as Lean `String`; the
case-folding, suffix test and default sort comparator of the runtime are
modeled on the underlying character list (ASCII case folding, code-point
lexicographic order). JavaScript numbers appearing in annotation geometry are
modeled as `ℚ` (all values exercised here are dyadic, hence exact in both
models). File-system reads and the worker HTTP call are modeled as an
environment record: a possibly-failing directory listing, a possibly-failing
per-file read, and the worker reply.
-/

deriving instance DecidableEq for Except

/-- Model of the ASCII lowering performed by the runtime toLowerCase, per character. -/
def lowerChar (c : Char) : Char :=
  if 65 ≤ c.toNat ∧ c.toNat ≤ 90 then Char.ofNat (c.toNat + 32) else c

/-- Model of toLowerCase on a whole string (ASCII range). -/
def lowerStr (s : String) : String := String.mk (s.data.map lowerChar)

/-- Model of the runtime endsWith test. -/
def endsWithStr (s suffix : String) : Bool := suffix.data.isSuffixOf s.data

/-- Comparator used by the runtime default array sort on strings: code-point
lexicographic order on the character data. -/
def fileLe (s t : String) : Prop := ¬ t.data < s.data

instance : DecidableRel fileLe := fun _ _ => instDecidableNot

instance : IsTotal String fileLe :=
  ⟨fun s t => by
    rcases lt_trichotomy s.data t.data with h | h | h
    · exact Or.inl (asymm h)
    · exact Or.inl (by rw [fileLe, h]; exact lt_irrefl _)
    · exact Or.inr (asymm h)⟩

instance : IsTrans String fileLe :=
  ⟨fun a b c hab hbc => by
    rw [fileLe, not_lt] at hab hbc ⊢
    exact le_trans hab hbc⟩

/-- Embedding of imageFiles.sort() from the fallback branch. -/
def sortFiles (files : List String) : List String := List.insertionSort fileLe files

/-- An annotation row as consumed by the export route: id, the free-form
imageId reference, the box geometry carried in data, and the class label. -/
structure AnnRecord where
  id : Nat
  imageId : String
  x : ℚ
  y : ℚ
  width : ℚ
  height : ℚ
  label : String
deriving DecidableEq

/-- The caller-supplied training configuration. Fields absent from the request
body are `none`; a present JavaScript falsy value (0 for numbers, the empty
string for strings) is modeled as some 0, respectively some of the empty
string. -/
structure TrainingConfig where
  epochs : Option Nat
  batchSize : Option Nat
  imgSize : Option Nat
  learningRate : Option ℚ
  modelType : Option String
  datasetSplitRatio : Option String
deriving DecidableEq

/-- Embedding of Object.keys of the reduce-grouping of annotations by imageId:
the imageIds in order of first appearance, without duplicates. (The runtime
reorders integer-like keys first; that corner is not exercised here and the
claims below depend on this list only through its length and its set of
members, except for the error payload where ids are filename-like.) -/
def dedupKeys (l : List String) : List String :=
  l.foldl (fun acc k => if k ∈ acc then acc else acc ++ [k]) []

/-- The unique imageIds having at least one annotation, in first-appearance order. -/
def uniqueImageIds (anns : List AnnRecord) : List String :=
  dedupKeys (anns.map (fun a => a.imageId))

/-- Embedding of the imageExtensions list of the route. -/
def imageExtensions : List String := [".jpg", ".jpeg", ".png", ".bmp", ".webp"]

/-- Embedding of the datasetFiles filter: keep files whose lowercased name ends
with one of the image extensions. -/
def isImageFile (f : String) : Bool :=
  imageExtensions.any (fun ext => endsWithStr (lowerStr f) ext)

/-- Embedding of the matching predicate inside imageFiles.find: exact equality
or case-insensitive exact equality, nothing else. -/
def annMatches (a : AnnRecord) (f : String) : Bool :=
  (a.imageId == f) || (lowerStr a.imageId == lowerStr f)

/-- Embedding of the imageFiles.find call for one annotation. -/
def findMatch (imageFiles : List String) (a : AnnRecord) : Option String :=
  imageFiles.find? (fun f => annMatches a f)

/-- Embedding of the map update: push the annotation onto the entry of the
matched file, creating the entry at the end of the map when it is new. The
association list order doubles as the annotatedImageFiles insertion order. -/
def addToMap (m : List (String × List AnnRecord)) (f : String) (a : AnnRecord) :
    List (String × List AnnRecord) :=
  match m with
  | [] => [(f, [a])]
  | (g, l) :: rest =>
    if g == f then (g, l ++ [a]) :: rest else (g, l) :: addToMap rest f a

/-- Embedding of the normal-path for-loop over annotations, carried out on an
accumulator: matched annotations are appended to the entry of their matched
file, unmatched annotations are dropped. -/
def normalReconcileAux (imageFiles : List String) :
    List AnnRecord → List (String × List AnnRecord) → List (String × List AnnRecord)
  | [], acc => acc
  | a :: rest, acc =>
    match findMatch imageFiles a with
    | none => normalReconcileAux imageFiles rest acc
    | some f => normalReconcileAux imageFiles rest (addToMap acc f a)

/-- Normal (non-expand) reconciliation path. -/
def normalReconcile (anns : List AnnRecord) (imageFiles : List String) :
    List (String × List AnnRecord) :=
  normalReconcileAux imageFiles anns []

/-- Embedding of Math.ceil(annotations.length / Math.min(annotations.length,
files)). When the minimum is zero the surrounding loop runs zero times, so the
value is irrelevant; 0 is used. -/
def annotationsPerImage (total nfiles : Nat) : Nat :=
  if min total nfiles = 0 then 0 else (total + min total nfiles - 1) / min total nfiles

/-- Fallback (expand) reconciliation path: sort the image files, cut the full
annotation list into contiguous chunks of annotationsPerImage, hand chunk i to
sorted file i, and keep only files that received a non-empty chunk. -/
def expandReconcile (anns : List AnnRecord) (imageFiles : List String) :
    List (String × List AnnRecord) :=
  (List.range (min anns.length (sortFiles imageFiles).length)).foldl
    (fun acc i =>
      let per := annotationsPerImage anns.length (sortFiles imageFiles).length
      let chunk := (anns.drop (i * per)).take per
      if chunk.isEmpty then acc else acc ++ [((sortFiles imageFiles).getD i (""), chunk)])
    []

/-- Embedding of the expand heuristic: fewer than 3 unique imageIds and at
least twice as many image files as unique imageIds. -/
def shouldExpandImageSelection (anns : List AnnRecord) (imageFiles : List String) : Bool :=
  decide ((uniqueImageIds anns).length < 3) &&
    decide (imageFiles.length ≥ (uniqueImageIds anns).length * 2)

/-- The reconciliation step: fallback path when the heuristic fires, normal
path otherwise. -/
def reconcile (anns : List AnnRecord) (imageFiles : List String) :
    List (String × List AnnRecord) :=
  if shouldExpandImageSelection anns imageFiles then expandReconcile anns imageFiles
  else normalReconcile anns imageFiles

/-- Embedding of the classMapping reduce followed by the lookup with the
falsy-fallback to 0: the index assigned to a label is the position of its last
occurrence in the class-name list, and a label with no occurrence maps to 0. -/
def classIndexAux (label : String) : List String → Nat → Option Nat → Option Nat
  | [], _, best => best
  | n :: rest, i, best =>
    classIndexAux label rest (i + 1) (if n == label then some i else best)

/-- Class index used in a label line. -/
def classIndex (classNames : List String) (label : String) : Nat :=
  (classIndexAux label classNames 0 none).getD 0

/-- Left-pad a digit string with zeros to the given width. -/
def padZeros (k : Nat) (s : String) : String :=
  String.mk (List.replicate (k - s.length) '0') ++ s

/-- Render n / 10^6 with exactly six digits after the point. -/
def natFixed6 (n : Nat) : String :=
  toString (n / 1000000) ++ "." ++ padZeros 6 (toString (n % 1000000))

/-- Model of toFixed(6) for the non-negative exact values produced by the
label conversion: round q to the nearest multiple of 10^-6, ties upward (the
larger candidate, as the runtime specifies), and render with six decimals. -/
def toFixed6 (q : ℚ) : String :=
  natFixed6 (Int.toNat ⌊q * 1000000 + 1 / 2⌋)

/-- Embedding of one line of the label conversion inside the archive loop:
reference dimensions are the constants 640 x 640. -/
def yoloLine (classNames : List String) (a : AnnRecord) : String :=
  toString (classIndex classNames a.label) ++ " " ++
    toFixed6 ((a.x + a.width / 2) / 640) ++ " " ++
    toFixed6 ((a.y + a.height / 2) / 640) ++ " " ++
    toFixed6 (a.width / 640) ++ " " ++
    toFixed6 (a.height / 640)

/-- Modelled from the spec: the label-conversion formulas of section 4.1, with
refWidth = refHeight = 640, one line per annotation, used as the refinement
counterpart of `yoloLine`. -/
def specLabelLine (classNames : List String) (a : AnnRecord) : String :=
  toString (classIndex classNames a.label) ++ " " ++
    toFixed6 ((a.x + a.width / 2) / 640) ++ " " ++
    toFixed6 ((a.y + a.height / 2) / 640) ++ " " ++
    toFixed6 (a.width / 640) ++ " " ++
    toFixed6 (a.height / 640)

/-- Embedding of the per-image label file content: newline-joined lines. -/
def yoloContent (classNames : List String) (anns : List AnnRecord) : String :=
  String.intercalate "\n" (anns.map (fun a => yoloLine classNames a))

/-- Embedding of imageFile.replace of the final dot-extension with .txt: the
extension is the maximal non-empty run of characters other than dot and slash
at the end, preceded by a dot; if there is none the name is unchanged. -/
def labelFileName (f : String) : String :=
  if (f.data.reverse.takeWhile (fun c => c ≠ '.' && c ≠ '/')).isEmpty then f
  else
    match f.data.reverse.drop
        (f.data.reverse.takeWhile (fun c => c ≠ '.' && c ≠ '/')).length with
    | '.' :: pre => String.mk pre.reverse ++ ".txt"
    | _ => f

/-- One entry of the assembled archive. -/
inductive ZipEntry where
  | image (name : String) (content : String)
  | labelFile (name : String) (content : String)
  | config (content : String)
deriving DecidableEq

/-- Embedding of the per-image archive loop: a file whose read fails is
skipped and the loop continues; a readable file contributes its image entry
and its converted label entry. -/
def processImages (readFile : String → Option String) (classNames : List String) :
    List (String × List AnnRecord) → List ZipEntry
  | [] => []
  | (f, anns) :: rest =>
    match readFile f with
    | none => processImages readFile classNames rest
    | some content =>
      ZipEntry.image f content :: ZipEntry.labelFile (labelFileName f) (yoloContent classNames anns)
        :: processImages readFile classNames rest

/-- Fallback used when a config value is absent or is the falsy number 0. -/
def orDefaultNat (v : Option Nat) (d : Nat) : Nat :=
  match v with
  | none => d
  | some x => if x = 0 then d else x

/-- Fallback used when a config value is absent or is the falsy number 0. -/
def orDefaultRat (v : Option ℚ) (d : ℚ) : ℚ :=
  match v with
  | none => d
  | some x => if x = 0 then d else x

/-- Fallback used when a config value is absent or is the falsy empty string. -/
def orDefaultStr (v : Option String) (d : String) : String :=
  match v with
  | none => d
  | some x => if x = "" then d else x

/-- Model of the decimal rendering of a non-negative number in the manifest:
the minimal terminating decimal expansion when one of at most 40 digits
exists, the plain fraction otherwise. -/
def decimalString (q : ℚ) : String :=
  match (List.range 41).find? (fun k => (q.num * (10 : ℤ) ^ k) % (q.den : ℤ) == 0) with
  | some 0 => toString (q.num / (q.den : ℤ))
  | some k =>
    toString ((q.num * (10 : ℤ) ^ k / (q.den : ℤ)).toNat / 10 ^ k) ++ "." ++
      padZeros k (toString ((q.num * (10 : ℤ) ^ k / (q.den : ℤ)).toNat % 10 ^ k))
  | none => toString q.num ++ "/" ++ toString q.den

/-- Embedding of createConfigYaml: defaults applied through the falsy-or
operator, then the fixed-layout manifest text. -/
def createConfigYaml (trainingConfig : TrainingConfig) (classNames : List String)
    (datasetName : String) (timestamp : Nat) : String :=
  "epochs: " ++ toString (orDefaultNat trainingConfig.epochs 100) ++ "\n" ++
    "batch_size: " ++ toString (orDefaultNat trainingConfig.batchSize 16) ++ "\n" ++
    "img_size: " ++ toString (orDefaultNat trainingConfig.imgSize 640) ++ "\n" ++
    "learning_rate: " ++ decimalString (orDefaultRat trainingConfig.learningRate 0.001) ++ "\n" ++
    "model: " ++ orDefaultStr trainingConfig.modelType "yolov8recommended" ++ "\n" ++
    "num_classes: " ++ toString classNames.length ++ "\n" ++
    "class_names:\n" ++ String.intercalate "\n" (classNames.map (fun n => "  - " ++ n)) ++ "\n" ++
    "project_name: " ++ datasetName ++ "_Training_" ++ toString timestamp ++ "\n" ++
    "train_val_split: " ++ orDefaultStr trainingConfig.datasetSplitRatio "80/20" ++ "\n"

/-- The reply of the external worker to the upload call: either a transport
failure of the fetch itself, or an HTTP reply with status, raw body text, the
parsed success flag (false when the body lacks the flag) and the parsed
payload fields. -/
inductive WorkerResp where
  | transportFail (details : String)
  | reply (status : Nat) (bodyText : String) (success : Bool)
      (fileName : String) (presignedUrl : String) (bucket : String) (uploadPath : String)
deriving DecidableEq

/-- The payload extracted from a successful worker reply. -/
structure UploadResult where
  fileName : String
  presignedUrl : String
  bucket : String
  uploadPath : String
deriving DecidableEq

/-- Errors surfaced by the export route. -/
inductive ExportError where
  | noAnnotationsError
  | internalError
  | noMatchedImagesError (availableImages : List String) (annotationImageIds : List String)
  | uploadDispatchError (details : String)
deriving DecidableEq

/-- Embedding of the dispatch step: a non-ok HTTP status raises an error
wrapping status and body, an ok reply without the success flag raises the
no-success-flag error, a transport failure propagates its message; only an ok
reply carrying the success flag yields the upload result. -/
def dispatchUpload (r : WorkerResp) : Except ExportError UploadResult :=
  match r with
  | WorkerResp.transportFail details => Except.error (ExportError.uploadDispatchError details)
  | WorkerResp.reply status bodyText success fileName presignedUrl bucket uploadPath =>
    if status < 200 ∨ 300 ≤ status then
      Except.error (ExportError.uploadDispatchError
        ("Worker upload failed: " ++ toString status ++ " - " ++ bodyText))
    else if success = false then
      Except.error (ExportError.uploadDispatchError
        ("Worker upload failed: No success flag in response"))
    else Except.ok ⟨fileName, presignedUrl, bucket, uploadPath⟩

/-- The JSON body returned by the route on success. -/
structure SuccessResp where
  message : String
  trainingId : String
  objectName : String
  bucketName : String
  downloadUrl : String
  totalAnnotatedImages : Nat
  totalAnnotations : Nat
  classNames : List String
  uploadPath : String
deriving DecidableEq

/-- The collaborators of one export invocation: the dataset directory listing
(none models a failing readdir), the per-file read (none models an unreadable
file), and the worker reply to the upload. -/
structure Env where
  listFiles : Option (List String)
  readFile : String → Option String
  workerResp : WorkerResp

/-- Embedding of the POST /start handler from the point where the annotation
rows have been fetched: empty-annotation check, directory listing, extension
filter, reconciliation, empty-match check, archive assembly (read failures
skipped), manifest, dispatch, and the success payload. -/
def exportPipeline (annotations : List AnnRecord) (classNames : List String)
    (cfg : TrainingConfig) (datasetName : String) (timestamp : Nat) (env : Env) :
    Except ExportError SuccessResp :=
  if annotations.isEmpty then Except.error ExportError.noAnnotationsError
  else
    match env.listFiles with
    | none => Except.error ExportError.internalError
    | some datasetFiles =>
      if (reconcile annotations (datasetFiles.filter isImageFile)).isEmpty then
        Except.error (ExportError.noMatchedImagesError
          ((datasetFiles.filter isImageFile).take 10) (uniqueImageIds annotations))
      else
        let _archive :=
          processImages env.readFile classNames
              (reconcile annotations (datasetFiles.filter isImageFile)) ++
            [ZipEntry.config (createConfigYaml cfg classNames datasetName timestamp)]
        match dispatchUpload env.workerResp with
        | Except.error e => Except.error e
        | Except.ok u =>
          Except.ok
            { message := "Training dataset uploaded successfully through worker"
              trainingId := "training_" ++ toString timestamp
              objectName := u.fileName
              bucketName := u.bucket
              downloadUrl := u.presignedUrl
              totalAnnotatedImages := (reconcile annotations (datasetFiles.filter isImageFile)).length
              totalAnnotations := annotations.length
              classNames := classNames
              uploadPath := u.uploadPath }

/-! ## Helper lemmas -/

/-- The matching predicate holds exactly for exact or case-insensitive exact
filename equality. -/
lemma annMatches_iff (a : AnnRecord) (f : String) :
    annMatches a f = true ↔ (a.imageId = f ∨ lowerStr a.imageId = lowerStr f) := by
  simp [annMatches]

/-- Invariant of the normal-path map: every entry is non-empty and every
annotation stored under a key was matched, by the find call, to that key. -/
def MapInv (imageFiles : List String) (m : List (String × List AnnRecord)) : Prop :=
  ∀ p ∈ m, p.2 ≠ [] ∧ ∀ b ∈ p.2, findMatch imageFiles b = some p.1

lemma mapInv_addToMap {imageFiles : List String} {m : List (String × List AnnRecord)}
    {f : String} {a : AnnRecord} (hm : MapInv imageFiles m)
    (ha : findMatch imageFiles a = some f) : MapInv imageFiles (addToMap m f a) := by
  induction m with
  | nil =>
    intro p hp
    simp only [addToMap, List.mem_singleton] at hp
    subst hp
    exact ⟨by simp, by intro b hb; simp only [List.mem_singleton] at hb; subst hb; exact ha⟩
  | cons q rest ih =>
    obtain ⟨g, l⟩ := q
    intro p hp
    simp only [addToMap] at hp
    by_cases hgf : g == f
    · rw [if_pos hgf] at hp
      rcases List.mem_cons.mp hp with h | h
      · subst h
        refine ⟨by simp, ?_⟩
        intro b hb
        rcases List.mem_append.mp hb with h1 | h1
        · exact (hm (g, l) (List.mem_cons_self _ _)).2 b h1
        · simp only [List.mem_singleton] at h1
          subst h1
          rw [ha]
          simp only [beq_iff_eq] at hgf
          rw [hgf]
      · exact hm p (List.mem_cons_of_mem _ h)
    · rw [if_neg hgf] at hp
      rcases List.mem_cons.mp hp with h | h
      · subst h
        exact hm (g, l) (List.mem_cons_self _ _)
      · exact ih (fun q hq => hm q (List.mem_cons_of_mem _ hq)) p h

lemma mapInv_normalReconcileAux (imageFiles : List String) (anns : List AnnRecord)
    (acc : List (String × List AnnRecord)) (hacc : MapInv imageFiles acc) :
    MapInv imageFiles (normalReconcileAux imageFiles anns acc) := by
  induction anns generalizing acc with
  | nil => exact hacc
  | cons a rest ih =>
    simp only [normalReconcileAux]
    cases hf : findMatch imageFiles a with
    | none => exact ih acc hacc
    | some f => exact ih _ (mapInv_addToMap hacc hf)

lemma mapInv_normalReconcile (anns : List AnnRecord) (imageFiles : List String) :
    MapInv imageFiles (normalReconcile anns imageFiles) :=
  mapInv_normalReconcileAux imageFiles anns [] (by intro p hp; simp at hp)

/-- An annotation whose find call fails is stored under no key of the
normal-path map. -/
lemma normal_unmatched_not_mem {anns : List AnnRecord} {imageFiles : List String}
    {a : AnnRecord} (ha : findMatch imageFiles a = none) :
    ∀ p ∈ normalReconcile anns imageFiles, a ∉ p.2 := by
  intro p hp hmem
  have h := (mapInv_normalReconcile anns imageFiles p hp).2 a hmem
  rw [ha] at h
  exact Option.noConfusion h

/-- The keys of the map after one insertion. -/
lemma keys_addToMap (m : List (String × List AnnRecord)) (f : String) (a : AnnRecord) :
    (addToMap m f a).map Prod.fst =
      if f ∈ m.map Prod.fst then m.map Prod.fst else m.map Prod.fst ++ [f] := by
  induction m with
  | nil => simp [addToMap]
  | cons q rest ih =>
    obtain ⟨g, l⟩ := q
    simp only [addToMap]
    by_cases hgf : g == f
    · simp only [beq_iff_eq] at hgf
      subst hgf
      simp
    · simp only [beq_iff_eq] at hgf
      rw [if_neg (by simpa using hgf)]
      have hne : ¬ f = g := fun h => hgf h.symm
      simp only [List.map_cons, List.mem_cons, hne, false_or, ih]
      by_cases hmem : f ∈ rest.map Prod.fst
      · simp [hmem]
      · simp [hmem]

/-- The keys of the normal-path loop are the fold of first-appearance
deduplication over the successively matched files. -/
lemma keys_normalReconcileAux (imageFiles : List String) (anns : List AnnRecord)
    (acc : List (String × List AnnRecord)) :
    (normalReconcileAux imageFiles anns acc).map Prod.fst =
      (anns.filterMap (findMatch imageFiles)).foldl
        (fun ks f => if f ∈ ks then ks else ks ++ [f]) (acc.map Prod.fst) := by
  induction anns generalizing acc with
  | nil => simp [normalReconcileAux]
  | cons a rest ih =>
    simp only [normalReconcileAux, List.filterMap_cons]
    cases hf : findMatch imageFiles a with
    | none => exact ih acc
    | some f =>
      simp only [List.foldl_cons]
      rw [ih, keys_addToMap]

/-- The keys of the normal-path map, in order, are the first-appearance
deduplication of the matched files in annotation order. -/
lemma keys_normalReconcile (anns : List AnnRecord) (imageFiles : List String) :
    (normalReconcile anns imageFiles).map Prod.fst =
      dedupKeys (anns.filterMap (findMatch imageFiles)) := by
  rw [normalReconcile, keys_normalReconcileAux, dedupKeys]
  rfl

/-! ## Claim C1 -/

/-- C1: the export takes the fallback (expand) path iff the number of unique
imageIds with at least one annotation is below 3 and the image-file count is
at least twice that number; in particular 2 files against 1 unique imageId
satisfies the comparison 2 >= 2 * 1 and selects the fallback path. -/
theorem expand_heuristic_c1 :
    (∀ (anns : List AnnRecord) (imageFiles : List String),
      shouldExpandImageSelection anns imageFiles = true ↔
        ((uniqueImageIds anns).length < 3 ∧
          2 * (uniqueImageIds anns).length ≤ imageFiles.length)) ∧
    shouldExpandImageSelection [⟨1, "a.jpg", 0, 0, 0, 0, "x"⟩] ["f1.jpg", "f2.jpg"] = true := by
  constructor
  · intro anns imageFiles
    simp [shouldExpandImageSelection, Nat.mul_comm]
  · decide

/-- Witness for C1 at the boundary input of the claim. -/
theorem expand_heuristic_c1_witness :
    shouldExpandImageSelection [⟨1, "a.jpg", 0, 0, 0, 0, "x"⟩] ["f1.jpg", "f2.jpg"] = true ↔
      ((uniqueImageIds [⟨1, "a.jpg", 0, 0, 0, 0, "x"⟩]).length < 3 ∧
        2 * (uniqueImageIds [⟨1, "a.jpg", 0, 0, 0, 0, "x"⟩]).length ≤
          (["f1.jpg", "f2.jpg"] : List String).length) :=
  expand_heuristic_c1.1 [⟨1, "a.jpg", 0, 0, 0, 0, "x"⟩] ["f1.jpg", "f2.jpg"]

/-! ## Claim C2 -/

/-- C2: on the normal path an annotation is stored under a file only by exact
or case-insensitive exact equality of its imageId with the filename, an
annotation the find call cannot match is stored nowhere (and causes no
error: the function is total), and the key order of the resulting map is the
first-appearance order of matched files. -/
theorem normal_path_matching_c2 :
    ∀ (anns : List AnnRecord) (imageFiles : List String),
      (∀ p ∈ normalReconcile anns imageFiles, ∀ b ∈ p.2,
        b.imageId = p.1 ∨ lowerStr b.imageId = lowerStr p.1) ∧
      (∀ a : AnnRecord, findMatch imageFiles a = none →
        ∀ p ∈ normalReconcile anns imageFiles, a ∉ p.2) ∧
      (normalReconcile anns imageFiles).map Prod.fst =
        dedupKeys (anns.filterMap (findMatch imageFiles)) := by
  intro anns imageFiles
  refine ⟨?_, ?_, keys_normalReconcile anns imageFiles⟩
  · intro p hp b hb
    have h := (mapInv_normalReconcile anns imageFiles p hp).2 b hb
    exact (annMatches_iff b p.1).mp (List.find?_some h)
  · intro a ha
    exact normal_unmatched_not_mem ha

/-- Witness for C2 on a concrete run mixing an exact match, a
case-insensitive match and an unmatched annotation. -/
theorem normal_path_matching_c2_witness :
    ((⟨2, "B.JPG", 0, 0, 1, 1, "x"⟩ : AnnRecord).imageId = "b.jpg" ∨
      lowerStr (⟨2, "B.JPG", 0, 0, 1, 1, "x"⟩ : AnnRecord).imageId = lowerStr "b.jpg") ∧
    (⟨3, "nope", 0, 0, 1, 1, "x"⟩ : AnnRecord) ∉
      [(⟨2, "B.JPG", 0, 0, 1, 1, "x"⟩ : AnnRecord)] ∧
    (normalReconcile [⟨2, "B.JPG", 0, 0, 1, 1, "x"⟩, ⟨3, "nope", 0, 0, 1, 1, "x"⟩]
        ["a.jpg", "b.jpg"]).map Prod.fst =
      dedupKeys ([⟨2, "B.JPG", 0, 0, 1, 1, "x"⟩,
        (⟨3, "nope", 0, 0, 1, 1, "x"⟩ : AnnRecord)].filterMap
          (findMatch ["a.jpg", "b.jpg"])) := by
  refine ⟨?_, ?_, ?_⟩
  · exact (normal_path_matching_c2 [⟨2, "B.JPG", 0, 0, 1, 1, "x"⟩, ⟨3, "nope", 0, 0, 1, 1, "x"⟩]
      ["a.jpg", "b.jpg"]).1 ("b.jpg", [⟨2, "B.JPG", 0, 0, 1, 1, "x"⟩]) (by decide)
      ⟨2, "B.JPG", 0, 0, 1, 1, "x"⟩ (by decide)
  · exact (normal_path_matching_c2 [⟨2, "B.JPG", 0, 0, 1, 1, "x"⟩, ⟨3, "nope", 0, 0, 1, 1, "x"⟩]
      ["a.jpg", "b.jpg"]).2.1 ⟨3, "nope", 0, 0, 1, 1, "x"⟩ (by decide)
      ("b.jpg", [⟨2, "B.JPG", 0, 0, 1, 1, "x"⟩]) (by decide)
  · exact (normal_path_matching_c2 [⟨2, "B.JPG", 0, 0, 1, 1, "x"⟩, ⟨3, "nope", 0, 0, 1, 1, "x"⟩]
      ["a.jpg", "b.jpg"]).2.2

/-! ## Claim C3 helpers -/

/-- Mapping a function over a list preserves emptiness. -/
lemma isEmpty_map {α β : Type} (f : α → β) (l : List α) : (l.map f).isEmpty = l.isEmpty := by
  cases l with
  | nil => rfl
  | cons x xs => rfl

/-- A left fold that conditionally appends one element per step is the
filterMap of its steps. -/
lemma foldl_if_append {β γ : Type} (c : β → Bool) (v : β → γ) (l : List β) (acc : List γ) :
    l.foldl (fun a i => if c i then a else a ++ [v i]) acc =
      acc ++ l.filterMap (fun i => if c i then none else some (v i)) := by
  induction l generalizing acc with
  | nil => simp
  | cons x xs ih =>
    simp only [List.foldl_cons, List.filterMap_cons]
    cases hc : c x with
    | true => simp [hc, ih]
    | false => simp [hc, ih]

/-- Closed form of the fallback loop: chunk i of the annotation list goes to
sorted file i, empty chunks are dropped. -/
lemma expandReconcile_eq (anns : List AnnRecord) (imageFiles : List String) :
    expandReconcile anns imageFiles =
      (List.range (min anns.length (sortFiles imageFiles).length)).filterMap (fun i =>
        if ((anns.drop (i * annotationsPerImage anns.length (sortFiles imageFiles).length)).take
              (annotationsPerImage anns.length (sortFiles imageFiles).length)).isEmpty then
          none
        else
          some ((sortFiles imageFiles).getD i (""),
            (anns.drop (i * annotationsPerImage anns.length (sortFiles imageFiles).length)).take
              (annotationsPerImage anns.length (sortFiles imageFiles).length))) := by
  simp only [expandReconcile]
  exact (foldl_if_append
    (fun i =>
      ((anns.drop (i * annotationsPerImage anns.length (sortFiles imageFiles).length)).take
        (annotationsPerImage anns.length (sortFiles imageFiles).length)).isEmpty)
    (fun i =>
      ((sortFiles imageFiles).getD i (""),
        (anns.drop (i * annotationsPerImage anns.length (sortFiles imageFiles).length)).take
          (annotationsPerImage anns.length (sortFiles imageFiles).length)))
    (List.range (min anns.length (sortFiles imageFiles).length)) []).trans
    (List.nil_append _)

/-- Ceiling-division bounds for the chunk size. -/
lemma ceil_div_bounds (t m : Nat) (h : 0 < m) :
    t ≤ (t + m - 1) / m * m ∧ (t + m - 1) / m * m < t + m := by
  obtain ⟨q, hq⟩ : ∃ q, (t + m - 1) / m = q := ⟨_, rfl⟩
  obtain ⟨r, hrw⟩ : ∃ r, (t + m - 1) % m = r := ⟨_, rfl⟩
  have key := Nat.div_add_mod (t + m - 1) m
  rw [hq, hrw] at key
  have hr : r < m := hrw ▸ Nat.mod_lt _ h
  rw [hq, Nat.mul_comm q m]
  obtain ⟨X, hX⟩ : ∃ X, m * q = X := ⟨_, rfl⟩
  rw [hX] at key ⊢
  omega

/-- The chunk size is the ceiling division when the loop runs at all. -/
lemma annotationsPerImage_pos_eq (total nfiles : Nat) (h : 0 < min total nfiles) :
    annotationsPerImage total nfiles = (total + min total nfiles - 1) / min total nfiles := by
  rw [annotationsPerImage, if_neg (by omega)]

/-- The fallback path never reads an imageId: substituting arbitrary imageIds
into every annotation maps through the result entrywise. -/
lemma expandReconcile_map_imageId (anns : List AnnRecord) (imageFiles : List String)
    (g : AnnRecord → String) :
    expandReconcile (anns.map (fun a => { a with imageId := g a })) imageFiles =
      (expandReconcile anns imageFiles).map
        (fun p => (p.1, p.2.map (fun a => { a with imageId := g a }))) := by
  rw [expandReconcile_eq, expandReconcile_eq, List.map_filterMap]
  simp only [List.length_map]
  congr 1
  funext i
  have hch :
      ((anns.map (fun a => { a with imageId := g a })).drop
          (i * annotationsPerImage anns.length (sortFiles imageFiles).length)).take
        (annotationsPerImage anns.length (sortFiles imageFiles).length) =
      ((anns.drop (i * annotationsPerImage anns.length (sortFiles imageFiles).length)).take
        (annotationsPerImage anns.length (sortFiles imageFiles).length)).map
          (fun a => { a with imageId := g a }) := by
    rw [List.map_take, List.map_drop]
  rw [hch, isEmpty_map]
  cases hc :
      ((anns.drop (i * annotationsPerImage anns.length (sortFiles imageFiles).length)).take
        (annotationsPerImage anns.length (sortFiles imageFiles).length)).isEmpty with
  | true => rfl
  | false => rfl

/-! ## Claim C3 -/

/-- C3: on the fallback path the files are sorted (lexicographically by
character data, as the runtime comparator does) into a permutation of the
image-file list; the result assigns to sorted file i the i-th contiguous
chunk of the full annotation list, the chunk size is the ceiling of
totalAnnotations over min(totalAnnotations, numFiles), only non-empty chunks
produce entries, and the original imageId values are ignored entirely. -/
theorem expand_path_chunking_c3 :
    (∀ imageFiles : List String,
      List.Sorted fileLe (sortFiles imageFiles) ∧ (sortFiles imageFiles).Perm imageFiles) ∧
    (∀ (anns : List AnnRecord) (imageFiles : List String),
      expandReconcile anns imageFiles =
        (List.range (min anns.length (sortFiles imageFiles).length)).filterMap (fun i =>
          if ((anns.drop
                (i * annotationsPerImage anns.length (sortFiles imageFiles).length)).take
                (annotationsPerImage anns.length (sortFiles imageFiles).length)).isEmpty then
            none
          else
            some ((sortFiles imageFiles).getD i (""),
              (anns.drop
                (i * annotationsPerImage anns.length (sortFiles imageFiles).length)).take
                (annotationsPerImage anns.length (sortFiles imageFiles).length)))) ∧
    (∀ total nfiles : Nat, 0 < min total nfiles →
      total ≤ annotationsPerImage total nfiles * min total nfiles ∧
        annotationsPerImage total nfiles * min total nfiles < total + min total nfiles) ∧
    (∀ (anns : List AnnRecord) (imageFiles : List String) (g : AnnRecord → String),
      expandReconcile (anns.map (fun a => { a with imageId := g a })) imageFiles =
        (expandReconcile anns imageFiles).map
          (fun p => (p.1, p.2.map (fun a => { a with imageId := g a })))) := by
  refine ⟨?_, expandReconcile_eq, ?_, expandReconcile_map_imageId⟩
  · intro imageFiles
    exact ⟨List.sorted_insertionSort _ _, List.perm_insertionSort _ _⟩
  · intro total nfiles h
    rw [annotationsPerImage_pos_eq total nfiles h]
    exact ceil_div_bounds total (min total nfiles) h

/-- Witness for C3: the ceiling bound at 10 annotations and 3 files, and the
sortedness conjunct at a concrete file list. -/
theorem expand_path_chunking_c3_witness :
    (10 ≤ annotationsPerImage 10 3 * min 10 3 ∧
      annotationsPerImage 10 3 * min 10 3 < 10 + min 10 3) ∧
    (sortFiles ["b.jpg", "a.jpg"]).Perm ["b.jpg", "a.jpg"] :=
  ⟨expand_path_chunking_c3.2.2.1 10 3 (by decide),
    (expand_path_chunking_c3.1 ["b.jpg", "a.jpg"]).2⟩

/-! ## Claim C9 helpers -/

/-- Every key produced by the fallback path is one of the image files. -/
lemma expand_keys_mem {anns : List AnnRecord} {imageFiles : List String}
    {p : String × List AnnRecord} (hp : p ∈ expandReconcile anns imageFiles) :
    p.1 ∈ imageFiles := by
  rw [expandReconcile_eq] at hp
  obtain ⟨i, hi, hif⟩ := List.mem_filterMap.mp hp
  have hilen : i < (sortFiles imageFiles).length := by
    have h := List.mem_range.mp hi
    omega
  by_cases hc :
      ((anns.drop (i * annotationsPerImage anns.length (sortFiles imageFiles).length)).take
        (annotationsPerImage anns.length (sortFiles imageFiles).length)).isEmpty = true
  · rw [if_pos hc] at hif
    exact absurd hif (by simp)
  · rw [if_neg hc] at hif
    cases Option.some.inj hif
    rw [List.getD_eq_getElem _ _ hilen]
    exact (List.perm_insertionSort fileLe imageFiles).subset (List.getElem_mem hilen)

/-- Every key produced by the normal path is one of the image files. -/
lemma normal_keys_mem {anns : List AnnRecord} {imageFiles : List String}
    {p : String × List AnnRecord} (hp : p ∈ normalReconcile anns imageFiles) :
    p.1 ∈ imageFiles := by
  obtain ⟨hne, hall⟩ := mapInv_normalReconcile anns imageFiles p hp
  obtain ⟨b, hb⟩ := List.exists_mem_of_ne_nil p.2 hne
  exact List.mem_of_find?_eq_some (hall b hb)

/-! ## Claim C9 -/

/-- C9 counterexample: with one annotation whose imageId matches no stored
filename and two image files, the fallback path fires and assigns that
unresolvable annotation to a file anyway, so an annotation whose imageId
cannot be resolved does participate in the output. -/
theorem map_keys_exist_c9_counterexample :
    reconcile [⟨3, "nope", 0, 0, 1, 1, "x"⟩] ["a.jpg", "b.jpg"] =
      [("a.jpg", [⟨3, "nope", 0, 0, 1, 1, "x"⟩])] ∧
    findMatch ["a.jpg", "b.jpg"] ⟨3, "nope", 0, 0, 1, 1, "x"⟩ = none :=
  ⟨by decide, by decide⟩

/-- C9 amended: by either path every key of the resulting map is a filename
of the storage listing supplied to reconciliation; the no-unresolved-
annotation guarantee holds on the normal path only. -/
theorem map_keys_exist_c9 :
    (∀ (anns : List AnnRecord) (imageFiles : List String),
      ∀ p ∈ reconcile anns imageFiles, p.1 ∈ imageFiles) ∧
    (∀ (anns : List AnnRecord) (imageFiles : List String),
      shouldExpandImageSelection anns imageFiles = false →
        ∀ a : AnnRecord, findMatch imageFiles a = none →
          ∀ p ∈ reconcile anns imageFiles, a ∉ p.2) := by
  constructor
  · intro anns imageFiles p hp
    rw [reconcile] at hp
    by_cases hs : shouldExpandImageSelection anns imageFiles = true
    · rw [if_pos hs] at hp
      exact expand_keys_mem hp
    · rw [if_neg hs] at hp
      exact normal_keys_mem hp
  · intro anns imageFiles hs a ha p hp
    rw [reconcile, if_neg (by simp [hs])] at hp
    exact normal_unmatched_not_mem ha p hp

/-- Witness for C9 amended, on a fallback-path key and a normal-path
unmatched annotation. -/
theorem map_keys_exist_c9_witness :
    ("a.jpg" : String) ∈ ["a.jpg", "b.jpg"] ∧
    (⟨3, "nope", 0, 0, 1, 1, "x"⟩ : AnnRecord) ∉
      [(⟨1, "a.jpg", 10, 20, 100, 50, "x"⟩ : AnnRecord)] :=
  ⟨(map_keys_exist_c9.1 [⟨3, "nope", 0, 0, 1, 1, "x"⟩] ["a.jpg", "b.jpg"])
      ("a.jpg", [⟨3, "nope", 0, 0, 1, 1, "x"⟩]) (by decide),
    (map_keys_exist_c9.2 [⟨1, "a.jpg", 10, 20, 100, 50, "x"⟩] ["a.jpg"] (by decide)
        ⟨3, "nope", 0, 0, 1, 1, "x"⟩ (by decide))
      ("a.jpg", [⟨1, "a.jpg", 10, 20, 100, 50, "x"⟩]) (by decide)⟩

/-! ## Claim C4 helpers -/

/-- CenterX of the test annotation, scaled and rounded. -/
lemma floor_eval_cx : ⌊(((10 : ℚ) + 100 / 2) / 640 * 1000000 + 1 / 2)⌋ = (93750 : ℤ) := by
  rw [Int.floor_eq_iff]
  norm_num

/-- CenterY of the test annotation, scaled and rounded: the exact value is
70312.5 + 0.5 = 70313, so the six-decimal rendering carries a final 3. -/
lemma floor_eval_cy : ⌊(((20 : ℚ) + 50 / 2) / 640 * 1000000 + 1 / 2)⌋ = (70313 : ℤ) := by
  rw [Int.floor_eq_iff]
  norm_num

/-- Normalized width of the test annotation, scaled and rounded. -/
lemma floor_eval_w : ⌊((100 : ℚ) / 640 * 1000000 + 1 / 2)⌋ = (156250 : ℤ) := by
  rw [Int.floor_eq_iff]
  norm_num

/-- Normalized height of the test annotation, scaled and rounded. -/
lemma floor_eval_h : ⌊((50 : ℚ) / 640 * 1000000 + 1 / 2)⌋ = (78125 : ℤ) := by
  rw [Int.floor_eq_iff]
  norm_num

/-- The label line the code produces for the test annotation of the spec. -/
lemma yolo_line_eval :
    yoloLine ["x"] ⟨1, "a.jpg", 10, 20, 100, 50, "x"⟩ =
      "0 0.093750 0.070313 0.156250 0.078125" := by
  rw [yoloLine]
  show toString (classIndex ["x"] "x") ++ " " ++
      toFixed6 (((10 : ℚ) + 100 / 2) / 640) ++ " " ++
      toFixed6 (((20 : ℚ) + 50 / 2) / 640) ++ " " ++
      toFixed6 ((100 : ℚ) / 640) ++ " " ++
      toFixed6 ((50 : ℚ) / 640) = _
  rw [toFixed6, toFixed6, toFixed6, toFixed6]
  rw [floor_eval_cx, floor_eval_cy, floor_eval_w, floor_eval_h]
  decide

/-! ## Claim C4 -/

/-- C4 counterexample: for the annotation x=10, y=20, width=100, height=50 at
reference size 640 the code does not produce the line of the claim; the
claimed centerY coordinate 0.035156 is wrong, the code computes
(20 + 50 / 2) / 640 = 0.0703125 which renders as 0.070313. -/
theorem label_conversion_c4_counterexample :
    yoloLine ["x"] ⟨1, "a.jpg", 10, 20, 100, 50, "x"⟩ ≠
      "0 0.093750 0.035156 0.156250 0.078125" := by
  rw [yolo_line_eval]
  decide

/-- C4 amended: the conversion computes centerX = (x + width/2)/640,
centerY = (y + height/2)/640, normWidth = width/640, normHeight = height/640,
each rendered with six decimals (ties rounded to the larger candidate), and
for the annotation x=10, y=20, width=100, height=50 the produced line is
"0 0.093750 0.070313 0.156250 0.078125" (centerY 0.070313, not 0.035156). -/
theorem label_conversion_c4 :
    (∀ (classNames : List String) (a : AnnRecord),
      yoloLine classNames a = specLabelLine classNames a) ∧
    yoloLine ["x"] ⟨1, "a.jpg", 10, 20, 100, 50, "x"⟩ =
      "0 0.093750 0.070313 0.156250 0.078125" :=
  ⟨fun _ _ => rfl, yolo_line_eval⟩

/-! ## Claim C5 -/

/-- C5: with an empty annotation list the pipeline fails with the
no-annotations error for every environment, in particular also when the
directory listing would fail and whatever the per-file reads or the worker
would return: the failure precedes every file-system interaction. -/
theorem empty_annotations_error_c5 :
    ∀ (classNames : List String) (cfg : TrainingConfig) (datasetName : String)
      (timestamp : Nat) (env : Env),
      exportPipeline [] classNames cfg datasetName timestamp env =
        Except.error ExportError.noAnnotationsError := by
  intro cns cfg dn ts env
  rfl

/-! ## Claim C6 -/

/-- C6: whenever reconciliation produces an empty map on a non-empty
annotation list, the pipeline fails with the no-matched-images error whose
payload is exactly the first ten (at most) image filenames and the full
unique-imageId list of the annotations. -/
theorem no_matched_images_error_c6 :
    ∀ (anns : List AnnRecord) (classNames : List String) (cfg : TrainingConfig)
      (datasetName : String) (timestamp : Nat) (env : Env) (datasetFiles : List String),
      anns ≠ [] →
      env.listFiles = some datasetFiles →
      reconcile anns (datasetFiles.filter isImageFile) = [] →
      exportPipeline anns classNames cfg datasetName timestamp env =
        Except.error (ExportError.noMatchedImagesError
          ((datasetFiles.filter isImageFile).take 10) (uniqueImageIds anns)) := by
  intro anns cns cfg dn ts env files hne hlf hrec
  have h1 : anns.isEmpty = false := by
    cases anns with
    | nil => exact absurd rfl hne
    | cons a l => rfl
  simp [exportPipeline, hlf, h1, hrec]

/-- Witness for C6: three unique unmatched imageIds against one stored image
file keep the normal path and match nothing. -/
theorem no_matched_images_error_c6_witness :
    exportPipeline
        [⟨1, "x", 0, 0, 1, 1, "c"⟩, ⟨2, "y", 0, 0, 1, 1, "c"⟩, ⟨3, "z", 0, 0, 1, 1, "c"⟩]
        ["c"] ⟨none, none, none, none, none, none⟩ ("d") 5
        ⟨some ["a.jpg"], fun _ => none, WorkerResp.transportFail ("t")⟩ =
      Except.error (ExportError.noMatchedImagesError ["a.jpg"] ["x", "y", "z"]) :=
  no_matched_images_error_c6
    [⟨1, "x", 0, 0, 1, 1, "c"⟩, ⟨2, "y", 0, 0, 1, 1, "c"⟩, ⟨3, "z", 0, 0, 1, 1, "c"⟩]
    ["c"] ⟨none, none, none, none, none, none⟩ ("d") 5
    ⟨some ["a.jpg"], fun _ => none, WorkerResp.transportFail ("t")⟩
    ["a.jpg"] (by decide) rfl (by decide)

/-! ## Claim C7 helpers -/

/-- The archive loop distributes over concatenation of its work list. -/
lemma processImages_append (readFile : String → Option String) (classNames : List String)
    (l1 l2 : List (String × List AnnRecord)) :
    processImages readFile classNames (l1 ++ l2) =
      processImages readFile classNames l1 ++ processImages readFile classNames l2 := by
  induction l1 with
  | nil => rfl
  | cons p rest ih =>
    obtain ⟨f, anns⟩ := p
    simp only [List.cons_append, processImages]
    cases readFile f with
    | none => exact ih
    | some c => simp [ih]

/-- A file whose read fails contributes nothing and the loop continues. -/
lemma processImages_skip {readFile : String → Option String} {classNames : List String}
    {f : String} {anns : List AnnRecord} (rest : List (String × List AnnRecord))
    (h : readFile f = none) :
    processImages readFile classNames ((f, anns) :: rest) =
      processImages readFile classNames rest := by
  simp [processImages, h]

/-- The route outcome does not depend on the per-file reads at all. -/
lemma pipeline_read_indep (anns : List AnnRecord) (classNames : List String)
    (cfg : TrainingConfig) (datasetName : String) (timestamp : Nat)
    (lf : Option (List String)) (r1 r2 : String → Option String) (w : WorkerResp) :
    exportPipeline anns classNames cfg datasetName timestamp ⟨lf, r1, w⟩ =
      exportPipeline anns classNames cfg datasetName timestamp ⟨lf, r2, w⟩ := by
  rfl

/-! ## Claim C7 -/

/-- C7 counterexample: one matched image whose read fails, with a successful
worker reply: zero images were successfully processed, the archive part built
from the images is empty, and the route still returns the success payload
(claiming one annotated image), contradicting the claim that success requires
at least one successfully processed image. -/
theorem partial_archive_c7_counterexample :
    exportPipeline [⟨1, "a.jpg", 10, 20, 100, 50, "x"⟩] ["x"]
        ⟨none, none, none, none, none, none⟩ ("d") 5
        ⟨some ["a.jpg"], fun _ => none,
          WorkerResp.reply 200 ("{}") true ("f") ("p") ("b") ("u")⟩ =
      Except.ok ⟨"Training dataset uploaded successfully through worker", "training_5",
        "f", "b", "p", 1, 1, ["x"], "u"⟩ ∧
    processImages (fun _ => none) ["x"]
        (reconcile [⟨1, "a.jpg", 10, 20, 100, 50, "x"⟩] (["a.jpg"].filter isImageFile)) = [] :=
  ⟨by decide, by decide⟩

/-- C7 amended: a failed read skips exactly that image while the loop
continues over the remaining files, and read failures are never surfaced to
the caller: the route outcome is entirely independent of the reads, so even
zero successfully processed images still yield the success payload (the
archive then holds only the manifest). -/
theorem partial_archive_c7 :
    (∀ (readFile : String → Option String) (classNames : List String)
      (l1 l2 : List (String × List AnnRecord)),
      processImages readFile classNames (l1 ++ l2) =
        processImages readFile classNames l1 ++ processImages readFile classNames l2) ∧
    (∀ (readFile : String → Option String) (classNames : List String) (f : String)
      (anns : List AnnRecord) (rest : List (String × List AnnRecord)),
      readFile f = none →
      processImages readFile classNames ((f, anns) :: rest) =
        processImages readFile classNames rest) ∧
    (∀ (anns : List AnnRecord) (classNames : List String) (cfg : TrainingConfig)
      (datasetName : String) (timestamp : Nat) (lf : Option (List String))
      (r1 r2 : String → Option String) (w : WorkerResp),
      exportPipeline anns classNames cfg datasetName timestamp ⟨lf, r1, w⟩ =
        exportPipeline anns classNames cfg datasetName timestamp ⟨lf, r2, w⟩) :=
  ⟨processImages_append, fun _ _ _ _ rest h => processImages_skip rest h, pipeline_read_indep⟩

/-- Witness for C7 amended: skipping a concrete unreadable file, and the
read-independence of the outcome between an all-failing and an all-succeeding
reader. -/
theorem partial_archive_c7_witness :
    processImages (fun _ => none) ["x"] [(("a.jpg"), [⟨1, "a.jpg", 10, 20, 100, 50, "x"⟩])] =
      processImages (fun _ => none) ["x"] [] ∧
    exportPipeline [⟨1, "a.jpg", 10, 20, 100, 50, "x"⟩] ["x"]
        ⟨none, none, none, none, none, none⟩ ("d") 5
        ⟨some ["a.jpg"], fun _ => none, WorkerResp.transportFail ("t")⟩ =
      exportPipeline [⟨1, "a.jpg", 10, 20, 100, 50, "x"⟩] ["x"]
        ⟨none, none, none, none, none, none⟩ ("d") 5
        ⟨some ["a.jpg"], fun _ => some ("bytes"), WorkerResp.transportFail ("t")⟩ :=
  ⟨partial_archive_c7.2.1 (fun _ => none) ["x"] ("a.jpg")
      [⟨1, "a.jpg", 10, 20, 100, 50, "x"⟩] [] rfl,
    partial_archive_c7.2.2 [⟨1, "a.jpg", 10, 20, 100, 50, "x"⟩] ["x"]
      ⟨none, none, none, none, none, none⟩ ("d") 5 (some ["a.jpg"])
      (fun _ => none) (fun _ => some ("bytes")) (WorkerResp.transportFail ("t"))⟩

/-! ## Claim C8 -/

/-- C8: the dispatch step yields a result only for an HTTP-ok reply carrying
the success flag; a transport failure propagates its message, a non-ok status
fails with the error wrapping status and body, an ok reply without the
success flag fails with the no-success-flag error, and the route returns the
success payload only when the dispatch succeeded. -/
theorem dispatch_gate_c8 :
    (∀ d : String,
      dispatchUpload (WorkerResp.transportFail d) =
        Except.error (ExportError.uploadDispatchError d)) ∧
    (∀ (status : Nat) (bodyText : String) (success : Bool) (fn pu bu up : String),
      status < 200 ∨ 300 ≤ status →
      dispatchUpload (WorkerResp.reply status bodyText success fn pu bu up) =
        Except.error (ExportError.uploadDispatchError
          ("Worker upload failed: " ++ toString status ++ " - " ++ bodyText))) ∧
    (∀ (status : Nat) (bodyText : String) (fn pu bu up : String),
      200 ≤ status → status < 300 →
      dispatchUpload (WorkerResp.reply status bodyText false fn pu bu up) =
        Except.error (ExportError.uploadDispatchError
          ("Worker upload failed: No success flag in response"))) ∧
    (∀ (r : WorkerResp) (u : UploadResult),
      dispatchUpload r = Except.ok u →
      ∃ (status : Nat) (bodyText : String) (fn pu bu up : String),
        r = WorkerResp.reply status bodyText true fn pu bu up ∧
          200 ≤ status ∧ status < 300 ∧ u = ⟨fn, pu, bu, up⟩) ∧
    (∀ (anns : List AnnRecord) (classNames : List String) (cfg : TrainingConfig)
      (datasetName : String) (timestamp : Nat) (env : Env),
      (exportPipeline anns classNames cfg datasetName timestamp env).isOk = true →
      (dispatchUpload env.workerResp).isOk = true) := by
  refine ⟨fun d => rfl, ?_, ?_, ?_, ?_⟩
  · intro status bodyText success fn pu bu up h
    simp only [dispatchUpload]
    rw [if_pos h]
  · intro status bodyText fn pu bu up h1 h2
    simp only [dispatchUpload]
    rw [if_neg (by omega)]
    simp
  · intro r u h
    cases r with
    | transportFail d => exact absurd h (by simp [dispatchUpload])
    | reply status bodyText success fn pu bu up =>
      simp only [dispatchUpload] at h
      by_cases h1 : status < 200 ∨ 300 ≤ status
      · rw [if_pos h1] at h
        exact absurd h (by simp)
      · rw [if_neg h1] at h
        by_cases h2 : success = false
        · rw [if_pos h2] at h
          exact absurd h (by simp)
        · rw [if_neg h2] at h
          have hsucc : success = true := by
            cases success with
            | false => exact absurd rfl h2
            | true => rfl
          subst hsucc
          exact ⟨status, bodyText, fn, pu, bu, up, rfl, by omega, by omega,
            (Except.ok.inj h).symm⟩
  · intro anns classNames cfg datasetName timestamp env h
    obtain ⟨lf, rf, w⟩ := env
    by_cases he : anns.isEmpty = true
    · rw [exportPipeline.eq_def, if_pos he] at h
      simp [Except.isOk, Except.toBool] at h
    · rw [exportPipeline.eq_def, if_neg he] at h
      cases lf with
      | none => simp [Except.isOk, Except.toBool] at h
      | some files =>
        simp only at h
        by_cases hrec : (reconcile anns (files.filter isImageFile)).isEmpty = true
        · rw [if_pos hrec] at h
          simp [Except.isOk, Except.toBool] at h
        · rw [if_neg hrec] at h
          show (dispatchUpload w).isOk = true
          cases hd : dispatchUpload w with
          | error e =>
            rw [hd] at h
            simp [Except.isOk, Except.toBool] at h
          | ok u => rfl

/-- Witness for C8: a 500 reply, an ok reply without the success flag, a
transport failure, and the inversion of a succeeding dispatch. -/
theorem dispatch_gate_c8_witness :
    dispatchUpload (WorkerResp.reply 500 ("boom") true ("f") ("p") ("b") ("u")) =
      Except.error (ExportError.uploadDispatchError ("Worker upload failed: 500 - boom")) ∧
    dispatchUpload (WorkerResp.reply 200 ("{}") false ("f") ("p") ("b") ("u")) =
      Except.error (ExportError.uploadDispatchError
        ("Worker upload failed: No success flag in response")) ∧
    dispatchUpload (WorkerResp.transportFail ("t")) =
      Except.error (ExportError.uploadDispatchError ("t")) :=
  ⟨(dispatch_gate_c8.2.1 500 ("boom") true ("f") ("p") ("b") ("u")
      (Or.inr (by decide))).trans (by decide),
    dispatch_gate_c8.2.2.1 200 ("{}") ("f") ("p") ("b") ("u") (by decide) (by decide),
    dispatch_gate_c8.1 ("t")⟩

/-! ## Claim C10 helpers -/

/-- The manifest rendering of the default learning rate. -/
lemma decimal_eval : decimalString (0.001 : ℚ) = "0.001" := by
  rw [show (0.001 : ℚ) = Rat.mk' 1 1000 (by decide) (by decide) by
    rw [Rat.mk'_eq_divInt, Rat.divInt_eq_div]
    norm_num]
  decide

/-! ## Claim C10 -/

set_option maxRecDepth 8192 in
/-- C10: the manifest substitutes the documented default not only for an
omitted field but for a present falsy value: epochs 0 and batchSize 0 produce
the same manifest as the omitted field, and in particular render as
epochs: 100 and batch_size: 16. -/
theorem config_defaults_c10 :
    (∀ (cfg : TrainingConfig) (classNames : List String) (datasetName : String)
      (timestamp : Nat),
      createConfigYaml { cfg with epochs := some 0 } classNames datasetName timestamp =
        createConfigYaml { cfg with epochs := none } classNames datasetName timestamp) ∧
    (∀ (cfg : TrainingConfig) (classNames : List String) (datasetName : String)
      (timestamp : Nat),
      createConfigYaml { cfg with batchSize := some 0 } classNames datasetName timestamp =
        createConfigYaml { cfg with batchSize := none } classNames datasetName timestamp) ∧
    createConfigYaml ⟨some 0, some 0, none, none, none, none⟩ ["cat"] ("d") 5 =
      "epochs: 100\nbatch_size: 16\nimg_size: 640\nlearning_rate: 0.001\nmodel: yolov8recommended\nnum_classes: 1\nclass_names:\n  - cat\nproject_name: d_Training_5\ntrain_val_split: 80/20\n" := by
  refine ⟨?_, ?_, ?_⟩
  · intro cfg classNames datasetName timestamp
    simp [createConfigYaml, orDefaultNat]
  · intro cfg classNames datasetName timestamp
    simp [createConfigYaml, orDefaultNat]
  · show "epochs: " ++ toString (orDefaultNat (some 0) 100) ++ "\n" ++
        "batch_size: " ++ toString (orDefaultNat (some 0) 16) ++ "\n" ++
        "img_size: " ++ toString (orDefaultNat none 640) ++ "\n" ++
        "learning_rate: " ++ decimalString (orDefaultRat none 0.001) ++ "\n" ++
        "model: " ++ orDefaultStr none "yolov8recommended" ++ "\n" ++
        "num_classes: " ++ toString (["cat"] : List String).length ++ "\n" ++
        "class_names:\n" ++
        String.intercalate "\n" ((["cat"] : List String).map (fun n => "  - " ++ n)) ++ "\n" ++
        "project_name: " ++ "d" ++ "_Training_" ++ toString 5 ++ "\n" ++
        "train_val_split: " ++ orDefaultStr none "80/20" ++ "\n" = _
    rw [show orDefaultRat none 0.001 = (0.001 : ℚ) from rfl, decimal_eval]
    decide
